import Mathlib

/-!
Shallow embedding of the telegram-ms-cognitive-bot repository
(src/unnamed/part_000 is the main program, src/helper.go the helpers).

Go strings are modeled as lists of characters; all data relevant to the
claims is ASCII, so byte indexing in Go agrees with character indexing
here.  Go maps are modeled as association lists on which an assignment
prepends the new pair, so that lookup (which returns the first hit) sees
the most recent assignment; reading a missing key yields the Go zero
value (the empty string).  Fallible or panicking Go code is modeled with
Except: a runtime panic (index out of range) is a GoPanic error value,
kept distinct from every user-facing message path.  Side-effecting calls
of processCallbackQuery are modeled as an event trace, with the outcome
of each external call (GetFile, AnswerCallbackQuery, EditMessageText)
supplied as a boolean oracle.  float64 arithmetic in the mask geometry is
modeled by real arithmetic.
-/

namespace CognitiveBot

abbrev Str := List Char

/-- Go runtime panics that the embedded code can raise. -/
inductive GoPanic where
  | indexOutOfRange
deriving DecidableEq

/-- CognitiveCommand value "Emotion Recognition" (src/unnamed/part_000, line 47). -/
def Emotion : Str := "Emotion Recognition".toList

/-- CognitiveCommand value "Face Detection". -/
def Face : Str := "Face Detection".toList

/-- CognitiveCommand value "Describe This Image". -/
def Describe : Str := "Describe This Image".toList

/-- CognitiveCommand value "OCR". -/
def Ocr : Str := "OCR".toList

/-- CognitiveCommand value "Handwritten Text Recognition". -/
def Handwritten : Str := "Handwritten Text Recognition".toList

/-- CognitiveCommand value "Tag This Image". -/
def Tag : Str := "Tag This Image".toList

/-- CognitiveCommand value "Censor Eyes". -/
def CensorEyes : Str := "Censor Eyes".toList

/-- CognitiveCommand value "Mask Faces". -/
def MaskFaces : Str := "Mask Faces".toList

/-- allCmds (src/unnamed/part_000, lines 60-71). -/
def allCmds : List Str :=
  [Emotion, Face, Describe, Ocr, Handwritten, Tag, CensorEyes, MaskFaces]

/-- The init() loop of src/unnamed/part_000 (lines 143-149): for each
command, the first byte of its label becomes its short code and is
recorded in both lookup maps; an empty label would panic on the index.
A later assignment to an already-used code silently shadows the earlier
one, as a Go map assignment does. -/
def buildMapsAux : List Str → List (Str × Str) → List (Char × Str) →
    Except GoPanic (List (Str × Str) × List (Char × Str))
  | [], short, cm => .ok (short, cm)
  | c :: rest, short, cm =>
    match c with
    | [] => .error .indexOutOfRange
    | ch :: _ => buildMapsAux rest ((c, [ch]) :: short) ((ch, c) :: cm)

/-- The whole init() code-map construction for a given command list. -/
def buildMaps (cmds : List Str) :
    Except GoPanic (List (Str × Str) × List (Char × Str)) :=
  buildMapsAux cmds [] []

/-- shortCmdsMap after init() has run on allCmds. -/
def shortCmdsMap : List (Str × Str) := ((buildMaps allCmds).toOption.getD ([], [])).1

/-- cmdsMap after init() has run on allCmds. -/
def cmdsMap : List (Char × Str) := ((buildMaps allCmds).toOption.getD ([], [])).2

/-- Reading cmdsMap as Go does: a missing key gives the zero value "". -/
def cmdsMapGet (c : Char) : Str := (cmdsMap.lookup c).getD []

/-- Reading shortCmdsMap as Go does: a missing key gives the zero value "". -/
def shortCmdsMapGet (cmd : Str) : Str := (shortCmdsMap.lookup cmd).getD []

/-- The single-character codes of the registered commands, in order. -/
def registeredCodes : List Char := allCmds.filterMap List.head?

/-- commandCancel (src/unnamed/part_000, line 102). -/
def commandCancel : Str := "cancel".toList

/-- messageActionImage constant. -/
def messageActionImage : Str := "Choose action for this image:".toList

/-- messageUnprocessable constant. -/
def messageUnprocessable : Str := "Unprocessable message.".toList

/-- messageFailedToGetFile constant. -/
def messageFailedToGetFile : Str := "Failed to get file from the server.".toList

/-- messageCanceled constant. -/
def messageCanceled : Str := "Canceled.".toList

/-- messageHelp constant (src/unnamed/part_000, lines 86-100). -/
def messageHelp : Str :=
  ("Send any image to this bot, and select one of the following actions:\n\n- Emotion Recognition\n- Face Detection\n- Describe This Image\n- OCR\n- Handwritten Text Recognition\n- Tag This Image\n- Censor Eyes\n- Mask Faces\n\nthen it will send the result message and/or image back to you.\n\n* Github: https://github.com/meinside/telegram-ms-cognitive-bot\n").toList

/-- strings.Contains of the Go standard library: whether sub occurs as a
contiguous substring of s (every string contains the empty string). -/
def strContains : Str → Str → Bool
  | s@(_ :: rest), sub => sub.isPrefixOf s || strContains rest sub
  | [], sub => sub.isEmpty

/-- Result of interpreting callback data in processCallbackQuery. -/
inductive DecodeResult where
  | canceled
  | dispatch (command : Str) (fileId : Str)
deriving DecidableEq

/-- Lines 89-93 of src/helper.go: the cancel sentinel is compared first;
otherwise the first character of the data is looked up in cmdsMap (a
missing key gives the zero-value command "") and the remainder of the
data is the file id.  An empty token panics on the data[0] index. -/
def decodeToken (data : Str) : Except GoPanic DecodeResult :=
  if data = commandCancel then .ok .canceled
  else
    match data with
    | [] => .error .indexOutOfRange
    | c :: rest => .ok (.dispatch (cmdsMapGet c) rest)

/-- Token construction in genImageInlineKeyboards (src/helper.go, line 576):
the short code of the command followed by the file id. -/
def encodeToken (cmd : Str) (fileId : Str) : Str := shortCmdsMapGet cmd ++ fileId

/-- genImageInlineKeyboards (src/helper.go, lines 573-583): one button per
registered command, labeled with the command and carrying the encoded
token as callback data, plus a cancel button carrying the cancel
sentinel.  Go iterates the intermediate map in unspecified order; the
buttons are modeled in allCmds order, which fixes the same multiset of
(label, callback-data) pairs. -/
def genImageInlineKeyboards (fileId : Str) : List (Str × Str) :=
  (allCmds.map fun cmd => (cmd, shortCmdsMapGet cmd ++ fileId)) ++
    [("Cancel".toList, commandCancel)]

/-- The external calls processCallbackQuery makes, in order. -/
inductive Event where
  | getFile (fileId : Str)
  | launchProcessImage (command : Str) (fileId : Str)
  | logRequest (command : Str)
  | logError
  | answerCallbackQuery
  | editMessageText (msg : Str)
deriving DecidableEq

/-- The ASCII single-quote character, written by its code point. -/
def squote : Char := Char.ofNat 39

/-- The acknowledgment text of src/helper.go line 101:
Processing <q><command><q> on received image... with single quotes. -/
def processingMessage (command : Str) : Str :=
  "Processing ".toList ++ [squote] ++ command ++ [squote] ++
    " on received image...".toList

/-- First half of processCallbackQuery (src/helper.go, lines 86-118):
interpret the callback data; on a dispatch token call GetFile, then test
whether the text of the message the keyboard was attached to contains
"image", and if so launch the processImage goroutine and log the request;
the chosen reply text is returned along with the trace so far. -/
def cbMainPhase (data msgText : Str) (getFileOk : Bool) :
    Except GoPanic (List Event × Str) :=
  (decodeToken data).map fun r =>
    match r with
    | .canceled => ([], messageCanceled)
    | .dispatch command fileId =>
      if getFileOk then
        if strContains msgText ("image".toList) then
          ([.getFile fileId, .launchProcessImage command fileId, .logRequest command],
            processingMessage command)
        else
          ([.getFile fileId], messageUnprocessable)
      else
        ([.getFile fileId, .logError], messageFailedToGetFile)

/-- Second half of processCallbackQuery (lines 120-134): answer the
callback query; if that succeeds, edit the prompt message to the chosen
text; failures are logged.  The function result is true only when both
calls succeed. -/
def cbAnswerPhase (message : Str) (answerOk editOk : Bool) : List Event × Bool :=
  if answerOk then
    if editOk then ([.answerCallbackQuery, .editMessageText message], true)
    else ([.answerCallbackQuery, .editMessageText message, .logError], false)
  else ([.answerCallbackQuery, .logError], false)

/-- processCallbackQuery (src/helper.go, lines 80-137) as an event trace
plus the boolean function result; GoPanic models the runtime panic on an
empty data string. -/
def processCallbackQuery (data msgText : Str) (getFileOk answerOk editOk : Bool) :
    Except GoPanic (List Event × Bool) :=
  (cbMainPhase data msgText getFileOk).map fun p =>
    let q := cbAnswerPhase p.2 answerOk editOk
    (p.1 ++ q.1, q.2)

/-- The event trace of processCallbackQuery, empty if the call panicked. -/
def cbTrace (data msgText : Str) (getFileOk answerOk editOk : Bool) : List Event :=
  ((processCallbackQuery data msgText getFileOk answerOk editOk).toOption.getD
    ([], false)).1

/-- The remote vision endpoints processImage can call. -/
inductive RemoteCall where
  | emotionRecognizeImage
  | faceDetect
  | describeImage
  | cvOcr
  | recognizeHandwritten
  | tagImage
deriving DecidableEq

/-- The head of the switch in processImage (src/helper.go, lines 147-559):
which remote vision API a given command reaches.  The default branch makes
no remote call at all and only reports an unsupported command. -/
def visionCallOf (command : Str) : Option RemoteCall :=
  if command = Emotion then some .emotionRecognizeImage
  else if command = Face ∨ command = CensorEyes ∨ command = MaskFaces then
    some .faceDetect
  else if command = Describe then some .describeImage
  else if command = Ocr then some .cvOcr
  else if command = Handwritten then some .recognizeHandwritten
  else if command = Tag then some .tagImage
  else none

/-- The default-branch error text of processImage (src/helper.go, line 558). -/
def commandNotSupportedMessage (command : Str) : Str :=
  "Command not supported: ".toList ++ command

/-- Whether an event is the goroutine launch of processImage. -/
def isLaunchEvent : Event → Bool
  | .launchProcessImage _ _ => true
  | _ => false

/-- Whether an event is an EditMessageText call (the acknowledgment and
every other reply of processCallbackQuery is delivered this way). -/
def isEditEvent : Event → Bool
  | .editMessageText _ => true
  | _ => false

/-- The ordering property C2 asserts: every EditMessageText acknowledgment
in the trace happens before every processImage launch. -/
def ackBeforeLaunch (tr : List Event) : Prop :=
  ∀ i j : Fin tr.length, isLaunchEvent (tr.get i) = true →
    isEditEvent (tr.get j) = true → (j : ℕ) < (i : ℕ)

/-- The ordering the code actually realizes: every processImage launch in
the trace happens before every EditMessageText call. -/
def launchBeforeEdit (tr : List Event) : Prop :=
  ∀ i j : Fin tr.length, isLaunchEvent (tr.get i) = true →
    isEditEvent (tr.get j) = true → (i : ℕ) < (j : ℕ)

/-- cog.Rectangle: Left, Top, Width, Height (Go int fields). -/
structure Rect where
  left : Int
  top : Int
  width : Int
  height : Int
deriving DecidableEq

/-- Drawing primitives the annotation code emits; the landmark coordinate
payload P is carried opaquely.  Graphics-context configuration (colors,
stroke width, font size) is elided. -/
inductive DrawEvent (P : Type) where
  | strokeRect (r : Rect)
  | label (text : Str)
  | circle (p : P)
  | segment (p q : P)
  | pixelate (blockSize : Int) (r : Rect)
deriving DecidableEq

/-- One iteration of the MaskFaces branch of processImage (src/helper.go,
lines 411-424): pixelate the face rectangle with block size
rect.Width / 8.  Go integer division truncates toward zero, hence
Int.tdiv; no minimum is applied to the block size before it is handed to
the external pixelation filter. -/
def drawMaskFacesInstance (P : Type) (rect : Rect) : List (DrawEvent P) :=
  [.pixelate (Int.tdiv rect.width 8) rect]

/-- hasAllKeys (src/helper.go, lines 592-600): whether every requested key
is present in the landmark map; an early miss stops the scan. -/
def hasAllKeys {P : Type} (keys : List Str) (points : List (Str × P)) : Bool :=
  match keys with
  | [] => true
  | k :: rest => if (points.lookup k).isSome then hasAllKeys rest points else false

/-- The five landmark names the Face branch requires before drawing any
marker (src/helper.go, lines 314-320). -/
def requiredLandmarkKeys : List Str :=
  ["noseTip".toList, "pupilRight".toList, "pupilLeft".toList,
   "mouthRight".toList, "mouthLeft".toList]

/-- The Face label of src/helper.go line 304. -/
def faceLabelText (n : Nat) : Str := "Face #".toList ++ (Nat.repr n).toList

/-- One iteration of the Face branch of processImage (src/helper.go, lines
277-349) for instance i: the rectangle outline and the Face label are
always drawn; the landmark markers (circles at nose tip and both pupils,
one segment across the mouth) are drawn only when hasAllKeys accepts all
five required names.  The guarded map reads use the Go zero value as
default, as the two-valued map read in the source does. -/
def drawFaceInstance {P : Type} [Inhabited P] (i : Nat) (rect : Rect)
    (landmarks : List (Str × P)) : List (DrawEvent P) :=
  [.strokeRect rect, .label (faceLabelText (i + 1))] ++
    (if hasAllKeys requiredLandmarkKeys landmarks then
      [.circle ((landmarks.lookup ("noseTip".toList)).getD default),
       .circle ((landmarks.lookup ("pupilRight".toList)).getD default),
       .circle ((landmarks.lookup ("pupilLeft".toList)).getD default),
       .segment ((landmarks.lookup ("mouthRight".toList)).getD default)
         ((landmarks.lookup ("mouthLeft".toList)).getD default)]
    else [])

/-- One entry of the Photo array of a Telegram message. -/
structure PhotoSize where
  fileId : Str
deriving DecidableEq

/-- A Telegram document attachment. -/
structure Document where
  mimeType : Str
  fileId : Str
deriving DecidableEq

/-- processUpdate (src/helper.go, lines 45-77), reply selection: a photo
message uses the LAST element of the Photo array (the largest rendition)
to build the keyboard; an image document uses the document file id;
anything else gets the help text and no keyboard. -/
def processUpdateReply (photos : List PhotoSize) (document : Option Document) :
    Option (List (Str × Str)) × Str :=
  match photos with
  | p :: ps =>
    (some (genImageInlineKeyboards (((p :: ps).getLast (List.cons_ne_nil p ps)).fileId)),
      messageActionImage)
  | [] =>
    match document with
    | some d =>
      if ("image/".toList).isPrefixOf d.mimeType then
        (some (genImageInlineKeyboards d.fileId), messageActionImage)
      else (none, messageHelp)
    | none => (none, messageHelp)

/-- cog.Point (float64 fields), with float64 arithmetic modeled by real
arithmetic. -/
structure Point where
  x : ℝ
  y : ℝ

/-- genMaskPoints (src/helper.go, lines 603-623), the eye-occlusion
geometry: eye heights and eye width as Euclidean distances, margins as
fixed fractions, offsets dX/dY taken from the strictly-higher left eye or
otherwise from the right eye, and the four returned corners. -/
noncomputable def genMaskPoints (lt lb lo rt rb ro : Point) :
    Point × Point × Point × Point :=
  let lEyeHeight := Real.sqrt ((lt.x - lb.x) ^ 2 + (lt.y - lb.y) ^ 2)
  let rEyeHeight := Real.sqrt ((rt.x - rb.x) ^ 2 + (rt.y - rb.y) ^ 2)
  let eyesWidth := Real.sqrt ((lo.x - ro.x) ^ 2 + (lo.y - ro.y) ^ 2)
  let marginX := eyesWidth * 0.2
  let marginY := max lEyeHeight rEyeHeight * 0.3
  let d :=
    if lEyeHeight > rEyeHeight then
      (max |lt.x - lo.x| |lb.x - lo.x| + marginX,
        max |lt.y - lo.y| |lb.y - lo.y| + marginY)
    else
      (max |rt.x - ro.x| |rb.x - ro.x| + marginX,
        max |rt.y - ro.y| |rb.y - ro.y| + marginY)
  (⟨lt.x - d.1, lt.y - d.2⟩, ⟨lb.x - d.1, lb.y + d.2⟩,
    ⟨rb.x + d.1, rb.y + d.2⟩, ⟨rt.x + d.1, rt.y - d.2⟩)

/-- The Euclidean top-to-bottom distance of one eye, as the claim words
it. -/
noncomputable def claimEyeHeight (top bottom : Point) : ℝ :=
  Real.sqrt ((top.x - bottom.x) ^ 2 + (top.y - bottom.y) ^ 2)

/-- The distance between the two outer eye points, as the claim words it. -/
noncomputable def claimEyesWidth (lo ro : Point) : ℝ :=
  Real.sqrt ((lo.x - ro.x) ^ 2 + (lo.y - ro.y) ^ 2)

/-- The claimed horizontal offset: the maximum absolute horizontal offset
of the reference eye top/bottom points from its outer point, plus the
horizontal margin. -/
noncomputable def claimDX (top bottom outer : Point) (marginX : ℝ) : ℝ :=
  max |top.x - outer.x| |bottom.x - outer.x| + marginX

/-- The claimed vertical offset: the maximum absolute vertical offset of
the reference eye top/bottom points from its outer point, plus the
vertical margin. -/
noncomputable def claimDY (top bottom outer : Point) (marginY : ℝ) : ℝ :=
  max |top.y - outer.y| |bottom.y - outer.y| + marginY

/-- The four claimed mask corners: left eye top offset by (-dX,-dY), left
eye bottom by (-dX,+dY), right eye bottom by (+dX,+dY), right eye top by
(+dX,-dY). -/
noncomputable def claimCorners (lt lb rt rb : Point) (dX dY : ℝ) :
    Point × Point × Point × Point :=
  (⟨lt.x - dX, lt.y - dY⟩, ⟨lb.x - dX, lb.y + dY⟩,
    ⟨rb.x + dX, rb.y + dY⟩, ⟨rt.x + dX, rt.y - dY⟩)

/- ===================== theorems ===================== -/

/-- A token whose first character differs from the lowercase c of the
cancel sentinel is not the cancel sentinel. -/
theorem cons_ne_cancel (c : Char) (hc : c ≠ 'c') (rest : Str) :
    c :: rest ≠ commandCancel := by
  intro h
  have h0 : (c :: rest).head? = commandCancel.head? := congrArg List.head? h
  rw [show commandCancel.head? = some 'c' from by decide] at h0
  simp only [List.head?_cons, Option.some.injEq] at h0
  exact hc h0

/-- decodeToken on a non-cancel nonempty token. -/
theorem decodeToken_cons (c : Char) (rest : Str) (h : c :: rest ≠ commandCancel) :
    decodeToken (c :: rest) = .ok (.dispatch (cmdsMapGet c) rest) := by
  unfold decodeToken
  rw [if_neg h]

/-- One concrete case of the round-trip law, abstracted over the command. -/
theorem roundTrip_case (op : Str) (c : Char) (hshort : shortCmdsMapGet op = [c])
    (hc : c ≠ 'c') (hget : cmdsMapGet c = op) (ref : Str) :
    decodeToken (encodeToken op ref) = .ok (.dispatch op ref) := by
  have he : encodeToken op ref = c :: ref := by rw [encodeToken, hshort]; rfl
  rw [he, decodeToken_cons c ref (cons_ne_cancel c hc ref), hget]

/-- C1: dispatch token round trip.  For every registered command op and
every file reference ref that does not begin with a registered code
character, decoding the token built by encoding (op, ref) yields the
dispatch result (op, ref): the first character alone determines op via
cmdsMap and the remainder is ref verbatim. -/
theorem dispatch_token_round_trip (op : Str) (hop : op ∈ allCmds) (ref : Str)
    (href : ∀ c ∈ registeredCodes, ref.head? ≠ some c) :
    decodeToken (encodeToken op ref) = .ok (.dispatch op ref) := by
  simp only [allCmds, List.mem_cons, List.not_mem_nil, or_false] at hop
  rcases hop with rfl | rfl | rfl | rfl | rfl | rfl | rfl | rfl
  · exact roundTrip_case _ 'E' (by decide) (by decide) (by decide) ref
  · exact roundTrip_case _ 'F' (by decide) (by decide) (by decide) ref
  · exact roundTrip_case _ 'D' (by decide) (by decide) (by decide) ref
  · exact roundTrip_case _ 'O' (by decide) (by decide) (by decide) ref
  · exact roundTrip_case _ 'H' (by decide) (by decide) (by decide) ref
  · exact roundTrip_case _ 'T' (by decide) (by decide) (by decide) ref
  · exact roundTrip_case _ 'C' (by decide) (by decide) (by decide) ref
  · exact roundTrip_case _ 'M' (by decide) (by decide) (by decide) ref

/-- C1 witness: the round trip at the concrete pair (Emotion, "x123"). -/
theorem dispatch_token_round_trip_witness :
    decodeToken (encodeToken Emotion ("x123".toList)) =
      .ok (.dispatch Emotion ("x123".toList)) :=
  dispatch_token_round_trip Emotion (by decide) ("x123".toList) (by decide)

/-- buildMapsAux never fails on a list of nonempty labels. -/
theorem buildMapsAux_ok (cmds : List Str) (h : ∀ c ∈ cmds, c ≠ []) :
    ∀ short cm, ∃ m, buildMapsAux cmds short cm = .ok m := by
  induction cmds with
  | nil => intro short cm; exact ⟨(short, cm), rfl⟩
  | cons c rest ih =>
    intro short cm
    match c, h c (List.mem_cons_self c rest) with
    | ch :: tail, _ =>
      exact ih (fun x hx => h x (List.mem_cons_of_mem _ hx))
        ((ch :: tail, [ch]) :: short) ((ch, ch :: tail) :: cm)

/-- C3 counterexample: a configuration in which two commands share the
first-letter code A is NOT rejected at startup.  buildMaps succeeds, and
the later command silently owns the code in cmdsMap. -/
theorem code_collision_not_rejected :
    buildMaps ["Ab".toList, "Ax".toList] =
      .ok ([("Ax".toList, ['A']), ("Ab".toList, ['A'])],
           [('A', "Ax".toList), ('A', "Ab".toList)]) ∧
    ((([('A', "Ax".toList), ('A', "Ab".toList)] : List (Char × Str)).lookup
      'A').getD []) = "Ax".toList :=
  ⟨rfl, rfl⟩

/-- C3 amended: the first-character codes of the eight registered commands
are pairwise distinct, but there is no fail-fast check at startup: map
construction succeeds for EVERY configuration of nonempty command labels,
colliding or not. -/
theorem codes_distinct_but_no_fail_fast :
    registeredCodes.Nodup ∧
    ∀ cmds : List Str, (∀ c ∈ cmds, c ≠ []) → ∃ m, buildMaps cmds = .ok m := by
  constructor
  · decide
  · intro cmds h
    exact buildMapsAux_ok cmds h [] []

/-- C3 witness: the amended statement applied to the registered commands. -/
theorem codes_distinct_but_no_fail_fast_witness :
    registeredCodes.Nodup ∧ ∃ m, buildMaps allCmds = .ok m :=
  ⟨codes_distinct_but_no_fail_fast.1,
    codes_distinct_but_no_fail_fast.2 allCmds (by decide)⟩

/-- C4 counterexample: an empty token does not produce any recoverable
error result; the decode step panics with an index-out-of-range runtime
error, and so does the whole callback handler. -/
theorem empty_token_panics_cex :
    decodeToken [] = .error .indexOutOfRange ∧
    ∀ r, decodeToken [] ≠ .ok r := by
  constructor
  · rfl
  · intro r h
    simp [decodeToken, commandCancel] at h

/-- C4 amended: decoding the empty token panics (unguarded index of the
first byte of the callback data) instead of failing with a recoverable
malformed-token error; the whole of processCallbackQuery propagates the
panic, whatever the message text and call outcomes are. -/
theorem empty_token_panics (msgText : Str) (g a e : Bool) :
    processCallbackQuery [] msgText g a e = .error .indexOutOfRange := rfl

/-- If a trace splits into a part without edits followed by a part without
launches, every launch in it precedes every edit. -/
theorem launchBeforeEdit_of_split (l₁ l₂ : List Event)
    (h1 : ∀ e ∈ l₂, isLaunchEvent e = false)
    (h2 : ∀ e ∈ l₁, isEditEvent e = false) :
    launchBeforeEdit (l₁ ++ l₂) := by
  intro i j hi hj
  rw [List.get_eq_getElem] at hi hj
  have hil : (i : ℕ) < l₁.length := by
    by_contra hge
    push_neg at hge
    rw [List.getElem_append_right hge] at hi
    rw [h1 _ (List.getElem_mem _)] at hi
    exact Bool.false_ne_true hi
  have hjl : l₁.length ≤ (j : ℕ) := by
    by_contra hlt
    push_neg at hlt
    rw [List.getElem_append_left hlt] at hj
    rw [h2 _ (List.getElem_mem _)] at hj
    exact Bool.false_ne_true hj
  omega

/-- C2 counterexample: on a decodable operation token the acknowledgment
edit is NOT sent before the concurrent task starts (the trace launches the
goroutine at position 1 and edits the message at position 4), and when
answering the callback query fails the goroutine has already been launched
anyway, with its remote vision call reachable: nothing aborts before the
fetch. -/
theorem ack_not_before_launch_cex :
    ¬ ackBeforeLaunch (cbTrace ("Ex".toList) messageActionImage true true true) ∧
    Event.launchProcessImage Emotion ("x".toList) ∈
      cbTrace ("Ex".toList) messageActionImage true false false ∧
    Event.getFile ("x".toList) ∈
      cbTrace ("Ex".toList) messageActionImage true false false ∧
    visionCallOf Emotion = some RemoteCall.emotionRecognizeImage := by
  refine ⟨?_, by decide, by decide, by decide⟩
  unfold ackBeforeLaunch
  decide

/-- C2 amended: the file fetch comes first, the concurrent processImage
task is launched immediately afterwards, and only then is the callback
query answered and the acknowledgment edit attempted; in particular every
launch precedes every acknowledgment edit, and the launch happens even
when answering or editing fails. -/
theorem launch_precedes_ack (c : Char) (rest msgText : Str) (ao eo : Bool)
    (hne : c :: rest ≠ commandCancel)
    (him : strContains msgText ("image".toList) = true) :
    cbTrace (c :: rest) msgText true ao eo =
      [.getFile rest, .launchProcessImage (cmdsMapGet c) rest,
       .logRequest (cmdsMapGet c), .answerCallbackQuery] ++
      (if ao then
        Event.editMessageText (processingMessage (cmdsMapGet c)) ::
          (if eo then [] else [.logError])
      else [.logError]) ∧
    launchBeforeEdit (cbTrace (c :: rest) msgText true ao eo) := by
  have h : cbTrace (c :: rest) msgText true ao eo =
      [.getFile rest, .launchProcessImage (cmdsMapGet c) rest,
       .logRequest (cmdsMapGet c), .answerCallbackQuery] ++
      (if ao then
        Event.editMessageText (processingMessage (cmdsMapGet c)) ::
          (if eo then [] else [.logError])
      else [.logError]) := by
    have him2 : strContains msgText (['i', 'm', 'a', 'g', 'e'] : Str) = true := him
    cases ao <;> cases eo <;>
      simp [cbTrace, processCallbackQuery, cbMainPhase, cbAnswerPhase,
        Except.map, Except.toOption, decodeToken_cons c rest hne, him2]
  refine ⟨h, ?_⟩
  rw [h]
  refine launchBeforeEdit_of_split _ _ ?_ ?_
  · intro e he
    cases ao <;> cases eo <;> simp at he <;> rcases he with rfl | rfl <;> rfl
  · intro e he
    fin_cases he <;> rfl

/-- C2 witness: the amended ordering at a concrete successful interaction. -/
theorem launch_precedes_ack_witness :
    cbTrace ('E' :: "x".toList) messageActionImage true true true =
      [.getFile ("x".toList), .launchProcessImage (cmdsMapGet 'E') ("x".toList),
       .logRequest (cmdsMapGet 'E'), .answerCallbackQuery] ++
      (if true then
        Event.editMessageText (processingMessage (cmdsMapGet 'E')) ::
          (if true then [] else [.logError])
      else [.logError]) ∧
    launchBeforeEdit (cbTrace ('E' :: "x".toList) messageActionImage true true true) :=
  launch_precedes_ack 'E' ("x".toList) messageActionImage true true
    (by decide) (by decide)

/-- cmdsMap evaluated: the most recent assignment of init() is in front. -/
theorem cmdsMap_concrete :
    cmdsMap = [('M', MaskFaces), ('C', CensorEyes), ('T', Tag), ('H', Handwritten),
      ('O', Ocr), ('D', Describe), ('F', Face), ('E', Emotion)] := rfl

/-- A character that is no registered code reads the Go zero value "" out
of cmdsMap. -/
theorem cmdsMapGet_of_not_registered (c : Char) (hcr : c ∉ registeredCodes) :
    cmdsMapGet c = [] := by
  rw [show registeredCodes = ['E', 'F', 'D', 'O', 'H', 'T', 'C', 'M'] from rfl] at hcr
  simp only [List.mem_cons, List.not_mem_nil, or_false, not_or] at hcr
  obtain ⟨h1, h2, h3, h4, h5, h6, h7, h8⟩ := hcr
  rw [cmdsMapGet, cmdsMap_concrete]
  simp [List.lookup, beq_eq_false_iff_ne.mpr h1, beq_eq_false_iff_ne.mpr h2,
    beq_eq_false_iff_ne.mpr h3, beq_eq_false_iff_ne.mpr h4,
    beq_eq_false_iff_ne.mpr h5, beq_eq_false_iff_ne.mpr h6,
    beq_eq_false_iff_ne.mpr h7, beq_eq_false_iff_ne.mpr h8]

/-- C5 counterexample: a token with unregistered first character X does
not fail at decode time.  The file IS fetched, the user is acknowledged
with a processing message (never the unprocessable notice), and a task is
launched for the zero-value command. -/
theorem unknown_code_no_decode_error_cex :
    Event.getFile ("abc".toList) ∈
      cbTrace ("Xabc".toList) messageActionImage true true true ∧
    Event.editMessageText messageUnprocessable ∉
      cbTrace ("Xabc".toList) messageActionImage true true true ∧
    Event.launchProcessImage [] ("abc".toList) ∈
      cbTrace ("Xabc".toList) messageActionImage true true true := by
  refine ⟨by decide, by decide, by decide⟩

/-- C5 amended: a non-empty non-cancel token whose first character matches
no registered code decodes to the zero-value command "".  The file is
still fetched and the processing task is still launched for that empty
command; only inside processImage does the empty command fall into the
default branch, which makes no remote vision call and reports the
command-not-supported text. -/
theorem unknown_code_dispatch (c : Char) (rest msgText : Str)
    (hcr : c ∉ registeredCodes) (hne : c :: rest ≠ commandCancel)
    (him : strContains msgText ("image".toList) = true) :
    cmdsMapGet c = [] ∧
    cbTrace (c :: rest) msgText true true true =
      [.getFile rest, .launchProcessImage [] rest, .logRequest [],
       .answerCallbackQuery, .editMessageText (processingMessage [])] ∧
    visionCallOf [] = none ∧
    commandNotSupportedMessage [] = "Command not supported: ".toList := by
  have hz := cmdsMapGet_of_not_registered c hcr
  have him2 : strContains msgText (['i', 'm', 'a', 'g', 'e'] : Str) = true := him
  refine ⟨hz, ?_, by decide, rfl⟩
  simp [cbTrace, processCallbackQuery, cbMainPhase, cbAnswerPhase, Except.map,
    Except.toOption, decodeToken_cons c rest hne, him2, hz]

/-- C5 witness: the amended statement at the concrete token Xabc. -/
theorem unknown_code_dispatch_witness :
    cmdsMapGet 'X' = [] ∧
    cbTrace ('X' :: "abc".toList) messageActionImage true true true =
      [.getFile ("abc".toList), .launchProcessImage [] ("abc".toList),
       .logRequest [], .answerCallbackQuery,
       .editMessageText (processingMessage [])] ∧
    visionCallOf [] = none ∧
    commandNotSupportedMessage [] = "Command not supported: ".toList :=
  unknown_code_dispatch 'X' ("abc".toList) messageActionImage
    (by decide) (by decide) (by decide)

/-- C6: eye-occlusion mask geometry.  With the eye heights and eyes width
as Euclidean distances, marginX = 0.2 * eyesWidth and marginY = 0.3 *
max of the eye heights, and dX/dY the maximum absolute
horizontal/vertical offsets of the reference (larger-height) eye
top/bottom points from its outer point plus the margins, genMaskPoints
returns the left-top corner offset by (-dX,-dY), the left-bottom by
(-dX,+dY), the right-bottom by (+dX,+dY) and the right-top by (+dX,-dY).
The left eye is the reference exactly when its height is strictly larger;
otherwise the right eye is used. -/
theorem genMaskPoints_spec (lt lb lo rt rb ro : Point) :
    (claimEyeHeight lt lb > claimEyeHeight rt rb →
      genMaskPoints lt lb lo rt rb ro =
        claimCorners lt lb rt rb
          (claimDX lt lb lo (claimEyesWidth lo ro * 0.2))
          (claimDY lt lb lo
            (max (claimEyeHeight lt lb) (claimEyeHeight rt rb) * 0.3))) ∧
    (claimEyeHeight rt rb ≥ claimEyeHeight lt lb →
      genMaskPoints lt lb lo rt rb ro =
        claimCorners lt lb rt rb
          (claimDX rt rb ro (claimEyesWidth lo ro * 0.2))
          (claimDY rt rb ro
            (max (claimEyeHeight lt lb) (claimEyeHeight rt rb) * 0.3))) := by
  constructor
  · intro h
    have h' : Real.sqrt ((lt.x - lb.x) ^ 2 + (lt.y - lb.y) ^ 2) >
        Real.sqrt ((rt.x - rb.x) ^ 2 + (rt.y - rb.y) ^ 2) := h
    simp only [genMaskPoints, claimCorners, claimDX, claimDY, claimEyesWidth,
      claimEyeHeight]
    rw [if_pos h']
  · intro h
    have h' : ¬ (Real.sqrt ((lt.x - lb.x) ^ 2 + (lt.y - lb.y) ^ 2) >
        Real.sqrt ((rt.x - rb.x) ^ 2 + (rt.y - rb.y) ^ 2)) := not_lt.mpr h
    simp only [genMaskPoints, claimCorners, claimDX, claimDY, claimEyesWidth,
      claimEyeHeight]
    rw [if_neg h']

/-- C6 witness: the mask corners at concrete eye points whose left eye is
strictly higher (left eye height 2, right eye height 1). -/
theorem genMaskPoints_spec_witness :
    genMaskPoints ⟨0, 0⟩ ⟨0, 2⟩ ⟨-1, 0⟩ ⟨10, 0⟩ ⟨10, 1⟩ ⟨11, 0⟩ =
      claimCorners ⟨0, 0⟩ ⟨0, 2⟩ ⟨10, 0⟩ ⟨10, 1⟩
        (claimDX ⟨0, 0⟩ ⟨0, 2⟩ ⟨-1, 0⟩ (claimEyesWidth ⟨-1, 0⟩ ⟨11, 0⟩ * 0.2))
        (claimDY ⟨0, 0⟩ ⟨0, 2⟩ ⟨-1, 0⟩
          (max (claimEyeHeight ⟨0, 0⟩ ⟨0, 2⟩) (claimEyeHeight ⟨10, 0⟩ ⟨10, 1⟩) * 0.3)) :=
  (genMaskPoints_spec ⟨0, 0⟩ ⟨0, 2⟩ ⟨-1, 0⟩ ⟨10, 0⟩ ⟨10, 1⟩ ⟨11, 0⟩).1 (by
    have e1 : claimEyeHeight ⟨0, 0⟩ ⟨0, 2⟩ = Real.sqrt 4 := by
      unfold claimEyeHeight
      norm_num
    have e2 : claimEyeHeight ⟨10, 0⟩ ⟨10, 1⟩ = Real.sqrt 1 := by
      unfold claimEyeHeight
      norm_num
    rw [e1, e2]
    exact Real.sqrt_lt_sqrt (by norm_num) (by norm_num))

/-- C7 counterexample: for a rectangle of width 7 the block size the code
passes to the pixelation filter is 7 / 8 = 0, while the claim demands
max 1 (7 / 8) = 1: the repository applies no minimum-1 clamp. -/
theorem pixelate_block_size_cex :
    drawMaskFacesInstance Unit ⟨0, 0, 7, 10⟩ =
      [.pixelate (Int.tdiv 7 8) ⟨0, 0, 7, 10⟩] ∧
    Int.tdiv 7 8 = 0 ∧ (0 : Int) ≠ max 1 (Int.tdiv 7 8) := by
  refine ⟨rfl, by decide, by decide⟩

/-- C7 amended: the block size used for pixelation is exactly
rect.Width / 8 with truncating integer division and no clamping; for a
width w with 0 ≤ w < 8 the block size is 0 (not 1), and only for w ≥ 8
does it coincide with the max (1, w/8) the claim states. -/
theorem pixelate_block_size (rect : Rect) :
    drawMaskFacesInstance Unit rect = [.pixelate (Int.tdiv rect.width 8) rect] ∧
    (0 ≤ rect.width → rect.width < 8 → Int.tdiv rect.width 8 = 0) ∧
    (8 ≤ rect.width → Int.tdiv rect.width 8 = max 1 (Int.tdiv rect.width 8)) := by
  refine ⟨rfl, ?_, ?_⟩
  · intro h1 h2
    rw [Int.tdiv_eq_ediv h1 (by norm_num)]
    omega
  · intro h8
    have h1 : (0 : Int) ≤ rect.width := by omega
    rw [Int.tdiv_eq_ediv h1 (by norm_num)]
    have hone : (1 : Int) ≤ rect.width / 8 := by omega
    exact (max_eq_right hone).symm

/-- C7 witness: the amended statement evaluated at a width-7 rectangle. -/
theorem pixelate_block_size_witness :
    drawMaskFacesInstance Unit ⟨0, 0, 7, 10⟩ =
      [.pixelate (Int.tdiv ((⟨0, 0, 7, 10⟩ : Rect)).width 8) ⟨0, 0, 7, 10⟩] ∧
    Int.tdiv ((⟨0, 0, 7, 10⟩ : Rect)).width 8 = 0 :=
  ⟨(pixelate_block_size ⟨0, 0, 7, 10⟩).1,
    (pixelate_block_size ⟨0, 0, 7, 10⟩).2.1 (by decide) (by decide)⟩

/-- A single missing key makes hasAllKeys reject. -/
theorem hasAllKeys_eq_false_of_missing {P : Type} (keys : List Str)
    (pts : List (Str × P)) (h : ∃ k ∈ keys, pts.lookup k = none) :
    hasAllKeys keys pts = false := by
  induction keys with
  | nil =>
    obtain ⟨k, hk, _⟩ := h
    exact absurd hk (List.not_mem_nil k)
  | cons k ks ih =>
    obtain ⟨k2, hk2, hnone⟩ := h
    rcases List.mem_cons.mp hk2 with rfl | hmem
    · simp [hasAllKeys, hnone]
    · by_cases hs : (pts.lookup k).isSome
      · simp only [hasAllKeys, hs, if_true]
        exact ih ⟨k2, hmem, hnone⟩
      · simp [hasAllKeys, hs]

/-- C8: landmark completeness gate.  If any of the five required landmark
names is missing, the instance still gets its rectangle outline and Face
label but no marker at all (no partial drawing, no error); when all five
names are present, exactly the three circles and the mouth segment are
added after the outline and label. -/
theorem landmark_completeness_gate {P : Type} [Inhabited P] (i : Nat)
    (rect : Rect) (landmarks : List (Str × P)) :
    ((∃ k ∈ requiredLandmarkKeys, landmarks.lookup k = none) →
      drawFaceInstance i rect landmarks =
        [.strokeRect rect, .label (faceLabelText (i + 1))]) ∧
    (hasAllKeys requiredLandmarkKeys landmarks = true →
      drawFaceInstance i rect landmarks =
        [.strokeRect rect, .label (faceLabelText (i + 1)),
         .circle ((landmarks.lookup ("noseTip".toList)).getD default),
         .circle ((landmarks.lookup ("pupilRight".toList)).getD default),
         .circle ((landmarks.lookup ("pupilLeft".toList)).getD default),
         .segment ((landmarks.lookup ("mouthRight".toList)).getD default)
           ((landmarks.lookup ("mouthLeft".toList)).getD default)]) := by
  constructor
  · intro h
    simp [drawFaceInstance, hasAllKeys_eq_false_of_missing _ _ h]
  · intro h
    simp [drawFaceInstance, h]

/-- C8 witness: an instance missing the noseTip landmark gets exactly the
outline and label. -/
theorem landmark_completeness_gate_witness :
    drawFaceInstance 0 ⟨0, 0, 10, 10⟩
      ([("pupilRight".toList, 1), ("pupilLeft".toList, 2),
        ("mouthRight".toList, 3), ("mouthLeft".toList, 4)] : List (Str × Nat)) =
      [.strokeRect ⟨0, 0, 10, 10⟩, .label (faceLabelText 1)] :=
  (landmark_completeness_gate 0 ⟨0, 0, 10, 10⟩ _).1 (by decide)

/-- C9: when a submission carries a photo with several renditions, the
keyboard is built from the file id of the LAST element of the Photo array,
and every non-cancel callback token embeds exactly that id - no other
rendition identifier is ever encoded. -/
theorem last_photo_dispatched (photos : List PhotoSize) (h : photos ≠ [])
    (document : Option Document) :
    (processUpdateReply photos document).1 =
      some (genImageInlineKeyboards ((photos.getLast h).fileId)) ∧
    ∀ pr ∈ genImageInlineKeyboards ((photos.getLast h).fileId),
      pr.2 = commandCancel ∨
        ∃ cmd ∈ allCmds, pr.2 = shortCmdsMapGet cmd ++ (photos.getLast h).fileId := by
  constructor
  · cases photos with
    | nil => exact absurd rfl h
    | cons p ps => rfl
  · intro pr hpr
    simp only [genImageInlineKeyboards, List.mem_append, List.mem_map,
      List.mem_singleton] at hpr
    rcases hpr with ⟨cmd, hcmd, rfl⟩ | rfl
    · exact Or.inr ⟨cmd, hcmd, rfl⟩
    · exact Or.inl rfl

/-- C9 witness: with two renditions a and b, every token embeds b. -/
theorem last_photo_dispatched_witness :
    (processUpdateReply [⟨"a".toList⟩, ⟨"b".toList⟩] none).1 =
      some (genImageInlineKeyboards ("b".toList)) ∧
    ∀ pr ∈ genImageInlineKeyboards ("b".toList),
      pr.2 = commandCancel ∨
        ∃ cmd ∈ allCmds, pr.2 = shortCmdsMapGet cmd ++ "b".toList :=
  last_photo_dispatched [⟨"a".toList⟩, ⟨"b".toList⟩] (by decide) none

/-- C10: once a non-cancel token decodes and its file resolves, the
asynchronous processImage task is launched exactly when the text of the
message the keyboard is attached to contains the substring image;
otherwise the user is told the message is unprocessable and no task (hence
no vision call) starts.  The guard is a bare substring test, and the help
text also contains image, so it would pass the guard too. -/
theorem image_guard (c : Char) (rest msgText : Str) (ao eo : Bool)
    (hne : c :: rest ≠ commandCancel) :
    ((∃ cmd fid, Event.launchProcessImage cmd fid ∈
        cbTrace (c :: rest) msgText true ao eo) ↔
      strContains msgText ("image".toList) = true) ∧
    (strContains msgText ("image".toList) = false →
      Event.editMessageText messageUnprocessable ∈
        cbTrace (c :: rest) msgText true true eo) ∧
    strContains messageHelp ("image".toList) = true := by
  refine ⟨⟨?_, ?_⟩, ?_, by decide⟩
  · intro hex
    by_contra hfalse
    have him : strContains msgText (['i', 'm', 'a', 'g', 'e'] : Str) = false := by
      cases hval : strContains msgText ("image".toList)
      · exact hval
      · exact absurd hval hfalse
    obtain ⟨cmd, fid, hmem⟩ := hex
    cases ao <;> cases eo <;>
      simp [cbTrace, processCallbackQuery, cbMainPhase, cbAnswerPhase, Except.map,
        Except.toOption, decodeToken_cons c rest hne, him] at hmem
  · intro him
    have him2 : strContains msgText (['i', 'm', 'a', 'g', 'e'] : Str) = true := him
    refine ⟨cmdsMapGet c, rest, ?_⟩
    cases ao <;> cases eo <;>
      simp [cbTrace, processCallbackQuery, cbMainPhase, cbAnswerPhase, Except.map,
        Except.toOption, decodeToken_cons c rest hne, him2]
  · intro him
    have him2 : strContains msgText (['i', 'm', 'a', 'g', 'e'] : Str) = false := him
    cases eo <;>
      simp [cbTrace, processCallbackQuery, cbMainPhase, cbAnswerPhase, Except.map,
        Except.toOption, decodeToken_cons c rest hne, him2]

/-- C10 witness: the guard at a concrete interaction whose prompt text
contains image. -/
theorem image_guard_witness :
    ((∃ cmd fid, Event.launchProcessImage cmd fid ∈
        cbTrace ('E' :: "x".toList) messageActionImage true true true) ↔
      strContains messageActionImage ("image".toList) = true) ∧
    (strContains messageActionImage ("image".toList) = false →
      Event.editMessageText messageUnprocessable ∈
        cbTrace ('E' :: "x".toList) messageActionImage true true true) ∧
    strContains messageHelp ("image".toList) = true :=
  image_guard 'E' ("x".toList) messageActionImage true true (by decide)

end CognitiveBot
